import Mathlib

/-!
Verification of the todo-store / intent-dispatch core of the repository.

The embedding translates the Python sources directly:
  * `models.py`   — `TodoStatus`, `TodoCreate`, `TodoUpdate`, `Todo`
  * `database.py` — the module-level store: `todos_db`, `next_id`,
    `get_todos`, `get_todo`, `create_todo`, `update_todo`, `delete_todo`
  * `todo_app.py` — the self-contained `TodoApp` class (its own todo list,
    `add_todo`, `get_todo`, `update_todo`, `delete_todo`, `execute_action`,
    and the JSON-reply handling of `process_ai_command`)
  * `simple_gemini_client.py` — `SimpleGeminiClient.execute_action` and the
    JSON-reply handling of `process_natural_language`

Modelling conventions:
  * `datetime.now()` is modelled by a `clock : Nat` carried in the state;
    every store call that asks for the current time reads the clock and the
    state then advances it, so wall-clock time strictly increases across
    calls (an idealisation of a strictly monotone real-time clock).
  * JSON values produced by `json.loads` are the inductive `JsonValue`;
    the Python value `None` (both an absent dict key and JSON `null`) is
    `Option.none` at use sites, translated by `asPy` / `dictGet`.
  * A service reply that `json.loads` rejects is modelled as `Option.none`
    fed to the reply-handling functions.
  * Result strings keep the words of the Python messages but drop emoji
    glyphs and interpolated payloads (the spec places response formatting
    glyphs out of scope); each message constant identifies exactly one
    branch of the Python code.
-/

/-- `models.py` `TodoStatus(str, Enum)`: the three status values. -/
inductive TodoStatus
  | pending
  | in_progress
  | completed
deriving DecidableEq, Repr

/-- `models.py` `Todo`: id, title, optional description, status, timestamps.
Timestamps are clock readings (`Nat`), see the clock convention above. -/
structure Todo where
  id : Nat
  title : String
  description : Option String
  status : TodoStatus
  created_at : Nat
  updated_at : Nat
deriving DecidableEq, Repr

/-- `models.py` `TodoCreate` with the defaults of `TodoBase`
(`description = None`, `status = pending`). Pydantic places no constraint
on `title` beyond being a string: the empty string is accepted. -/
structure TodoCreate where
  title : String
  description : Option String := none
  status : TodoStatus := TodoStatus.pending
deriving DecidableEq, Repr

/-- `models.py` `TodoUpdate`: each field is `some v` when it was explicitly
supplied (pydantic `exclude_unset=True` keeps exactly the supplied fields). -/
structure TodoUpdate where
  title : Option String := none
  description : Option String := none
  status : Option TodoStatus := none
deriving DecidableEq, Repr

/-- `database.py` module state: the list `todos_db`, the counter `next_id`,
plus the modelled wall clock. -/
structure DB where
  todos_db : List Todo
  next_id : Nat
  clock : Nat
deriving DecidableEq, Repr

/-- `database.py` initial state: `todos_db = []`, `next_id = 1`. -/
def initDB : DB := { todos_db := [], next_id := 1, clock := 0 }

/-- `database.py` `get_todos`: returns the collection; no mutation. -/
def get_todos (db : DB) : List Todo :=
  db.todos_db

/-- `database.py` `get_todo`: first todo with `todo.id == todo_id`, else `None`. -/
def get_todo (todo_id : Nat) (db : DB) : Option Todo :=
  db.todos_db.find? (fun t => t.id == todo_id)

/-- `database.py` `create_todo`: builds the record with `id = next_id`,
both timestamps `now`, appends it and increments `next_id`.
There is no validation of the title. -/
def create_todo (todo_data : TodoCreate) (db : DB) : Todo × DB :=
  let now := db.clock
  let todo : Todo :=
    { id := db.next_id
      title := todo_data.title
      description := todo_data.description
      status := todo_data.status
      created_at := now
      updated_at := now }
  (todo, { todos_db := db.todos_db ++ [todo], next_id := db.next_id + 1, clock := db.clock + 1 })

/-- `database.py` `update_todo` body: overwrite exactly the supplied fields
(`exclude_unset`), then stamp `updated_at = now`.  `id` and `created_at`
are never touched. -/
def applyUpdate (todo_data : TodoUpdate) (now : Nat) (t : Todo) : Todo :=
  { id := t.id
    title := todo_data.title.getD t.title
    description :=
      match todo_data.description with
      | some v => some v
      | none => t.description
    status := todo_data.status.getD t.status
    created_at := t.created_at
    updated_at := now }

/-- The `for i, todo in enumerate(todos_db)` loop of `update_todo`: replace
the first element satisfying `p` by its update, keep the rest. Returns the
updated record (`None` when no element matched) and the new list. -/
def updateFirstP (p : Todo → Bool) (todo_data : TodoUpdate) (now : Nat) :
    List Todo → Option Todo × List Todo
  | [] => (none, [])
  | t :: ts =>
    if p t then
      (some (applyUpdate todo_data now t), applyUpdate todo_data now t :: ts)
    else
      let r := updateFirstP p todo_data now ts
      (r.1, t :: r.2)

/-- `database.py` `update_todo`, generalised over the id-matching predicate
(Python compares `todo.id == todo_id` with whatever value the caller holds). -/
def update_todo_p (p : Todo → Bool) (todo_data : TodoUpdate) (db : DB) :
    Option Todo × DB :=
  let r := updateFirstP p todo_data db.clock db.todos_db
  (r.1, { db with todos_db := r.2, clock := db.clock + 1 })

/-- `database.py` `update_todo` with an integer id (the typed HTTP surface). -/
def update_todo (todo_id : Nat) (todo_data : TodoUpdate) (db : DB) :
    Option Todo × DB :=
  update_todo_p (fun t => t.id == todo_id) todo_data db

/-- The `for i, todo in enumerate(todos_db)` loop of `delete_todo`:
pop the first element satisfying `p`. -/
def deleteFirstP (p : Todo → Bool) : List Todo → Bool × List Todo
  | [] => (false, [])
  | t :: ts =>
    if p t then (true, ts)
    else
      let r := deleteFirstP p ts
      (r.1, t :: r.2)

/-- `database.py` `delete_todo`, generalised over the id-matching predicate.
`delete_todo` never reads the clock. -/
def delete_todo_p (p : Todo → Bool) (db : DB) : Bool × DB :=
  let r := deleteFirstP p db.todos_db
  (r.1, { db with todos_db := r.2 })

/-- `database.py` `delete_todo` with an integer id. -/
def delete_todo (todo_id : Nat) (db : DB) : Bool × DB :=
  delete_todo_p (fun t => t.id == todo_id) db

/-- One call against the `database.py` store, the direct structured surface
of `main.py` (reads included). -/
inductive Op
  | list
  | get (todo_id : Nat)
  | create (todo_data : TodoCreate)
  | update (todo_id : Nat) (todo_data : TodoUpdate)
  | delete (todo_id : Nat)
deriving DecidableEq, Repr

/-- Whether a call is one of the two read-only operations
(`get_todos` / `get_todo`). -/
def isRead : Op → Bool
  | Op.list => true
  | Op.get _ => true
  | _ => false

/-- Run a sequence of store calls. Returns the final state and the ids of
the todos returned by the `create` calls, in call order. `get_todos` and
`get_todo` are functions of the state only (they contain no assignment in
the source), so the state is passed through them unchanged. -/
def runOps : List Op → DB → DB × List Nat
  | [], db => (db, [])
  | Op.list :: ops, db => runOps ops db
  | Op.get _ :: ops, db => runOps ops db
  | Op.create d :: ops, db =>
    let r := create_todo d db
    let rest := runOps ops r.2
    (rest.1, r.1.id :: rest.2)
  | Op.update i d :: ops, db => runOps ops (update_todo i d db).2
  | Op.delete i :: ops, db => runOps ops (delete_todo i db).2

/-- The store state after running `ops` from the initial state. -/
def stateAfter (ops : List Op) : DB :=
  (runOps ops initDB).1

/-! ### JSON values and Python-level access helpers -/

/-- A JSON value as produced by `json.loads`. Objects are association
lists (JSON object keys are unique, so first-key lookup is exact). -/
inductive JsonValue
  | null
  | bool (b : Bool)
  | num (n : Int)
  | str (s : String)
  | arr (xs : List JsonValue)
  | obj (fields : List (String × JsonValue))

/-- The Python value of a JSON value: `json.loads` turns JSON `null` into
Python `None`, modelled as `Option.none`. -/
def asPy : JsonValue → Option JsonValue
  | JsonValue.null => none
  | v => some v

/-- Raw association-list lookup (the stored JSON value of a key). -/
def jfind : List (String × JsonValue) → String → Option JsonValue
  | [], _ => none
  | (k, v) :: rest, key => if k == key then some v else jfind rest key

/-- Python `dict.get(key)`: `None` when the key is absent, otherwise the
stored Python value (JSON `null` is already Python `None`). -/
def dictGet (fields : List (String × JsonValue)) (key : String) : Option JsonValue :=
  match jfind fields key with
  | none => none
  | some v => asPy v

/-- Python `dict.get(key, dflt)`: the default only when the key is absent. -/
def dictGetD (fields : List (String × JsonValue)) (key : String) (dflt : JsonValue) :
    Option JsonValue :=
  match jfind fields key with
  | none => asPy dflt
  | some v => asPy v

/-- Python truthiness of a value coming out of `dict.get`: `None`, `False`,
`0`, `""` and empty containers are falsy (`if not x:`). -/
def pyFalsy : Option JsonValue → Bool
  | none => true
  | some JsonValue.null => true
  | some (JsonValue.bool b) => !b
  | some (JsonValue.num n) => n == 0
  | some (JsonValue.str s) => s == ""
  | some (JsonValue.arr xs) => xs.isEmpty
  | some (JsonValue.obj fs) => fs.isEmpty

/-- Python `==` between a JSON-derived value and an `int` id
(`todo.id == todo_id`): numbers compare by value, `True`/`False` are the
ints 1/0, every other type compares unequal. -/
def jeqId (v : JsonValue) (n : Nat) : Bool :=
  match v with
  | JsonValue.num m => m == (n : Int)
  | JsonValue.bool b => (if b then (1 : Int) else 0) == (n : Int)
  | _ => false

/-- Python `action == "name"`: true exactly when the action value is that
string (comparison of a non-string with a string is `False`). -/
def isStr (v : Option JsonValue) (s : String) : Bool :=
  match v with
  | some (JsonValue.str t) => t == s
  | _ => false

/-- `TodoStatus(x)` on a Python value: succeeds exactly on the three
member strings, every other argument raises `ValueError` (modelled `none`). -/
def toStatus : Option JsonValue → Option TodoStatus
  | some (JsonValue.str "pending") => some TodoStatus.pending
  | some (JsonValue.str "in_progress") => some TodoStatus.in_progress
  | some (JsonValue.str "completed") => some TodoStatus.completed
  | _ => none

/-- The canonical string of a status (`TodoStatus` is a `str` enum). -/
def statusName : TodoStatus → String
  | TodoStatus.pending => "pending"
  | TodoStatus.in_progress => "in_progress"
  | TodoStatus.completed => "completed"

/-! ### `simple_gemini_client.py`: the executor over the `database.py` store -/

/-- Rendering of the `list_todos` branch (glyphs and line breaks dropped). -/
def renderTodos (l : List Todo) : String :=
  if l.isEmpty then "No todos found"
  else
    l.foldl
      (fun acc t =>
        acc ++ " ID " ++ toString t.id ++ ": " ++ t.title ++ " (" ++ statusName t.status ++ ")")
      "All Todos:"

/-- Rendering of the `get_todo` branch (glyphs and timestamps dropped). -/
def renderTodo (t : Todo) : String :=
  "Todo ID " ++ toString t.id ++ ": " ++ t.title ++ " Status: " ++ statusName t.status

/-- A string-typed parameter value for pydantic construction.
String-typed values are taken verbatim; pydantic coercion of other JSON
types is not modelled and is conservatively routed to the error branch. -/
def asStr : Option JsonValue → Option String
  | some (JsonValue.str s) => some s
  | _ => none

/-- The `description` argument of `TodoCreate`: the field is `Optional[str]`,
so Python `None` is accepted, a string is accepted. -/
def createDesc : Option JsonValue → Option (Option String)
  | none => some none
  | some (JsonValue.str s) => some (some s)
  | some _ => none

/-- `if "title" in parameters: update_data["title"] = parameters["title"]`
of the `update_todo` branch: absent key leaves the field unset; a supplied
string is stored. (Non-string supplied values, including an explicit JSON
`null`, are not modelled and are routed to the error branch.) -/
def updTitle (fields : List (String × JsonValue)) : Option (Option String) :=
  match jfind fields "title" with
  | none => some none
  | some (JsonValue.str s) => some (some s)
  | some _ => none

/-- Same as `updTitle` for the `description` key. -/
def updDesc (fields : List (String × JsonValue)) : Option (Option String) :=
  match jfind fields "description" with
  | none => some none
  | some (JsonValue.str s) => some (some s)
  | some _ => none

/-- `if "status" in parameters: update_data["status"] =
TodoStatus(parameters["status"])`: absent key leaves the field unset; a
present value must convert through `TodoStatus(...)`, otherwise the raised
`ValueError` reaches the surrounding `except` (modelled `none`). -/
def updStatus (fields : List (String × JsonValue)) : Option (Option TodoStatus) :=
  match jfind fields "status" with
  | none => some none
  | some v =>
    match toStatus (asPy v) with
    | some stv => some (some stv)
    | none => none

namespace SimpleGeminiClient

/-- `SimpleGeminiClient.execute_action` (`simple_gemini_client.py` 95-186).
`action` and `parameters` are the Python values extracted from the service
reply (`None` possible for both). The `if/elif` chain compares `action`
against the five names; accessing `.get` on a non-dict `parameters` raises
`AttributeError`, caught by the enclosing `try/except` as the
"Error executing action" message. -/
def execute_action (action : Option JsonValue) (parameters : Option JsonValue) (db : DB) :
    String × DB :=
  if isStr action "list_todos" then
    (renderTodos db.todos_db, db)
  else if isStr action "get_todo" then
    match parameters with
    | some (JsonValue.obj fields) =>
      match dictGet fields "todo_id" with
      | none => ("Todo ID is required", db)
      | some tid =>
        if pyFalsy (some tid) then ("Todo ID is required", db)
        else
          match db.todos_db.find? (fun t => jeqId tid t.id) with
          | none => ("Todo not found", db)
          | some t => (renderTodo t, db)
    | _ => ("Error executing action", db)
  else if isStr action "create_todo" then
    match parameters with
    | some (JsonValue.obj fields) =>
      match dictGet fields "title" with
      | none => ("Title is required", db)
      | some titleV =>
        if pyFalsy (some titleV) then ("Title is required", db)
        else
          match toStatus (dictGetD fields "status" (JsonValue.str "pending")) with
          | none => ("Error creating todo", db)
          | some stv =>
            match asStr (some titleV), createDesc (dictGetD fields "description" (JsonValue.str "")) with
            | some ti, some de =>
              let r := create_todo { title := ti, description := de, status := stv } db
              ("Created todo", r.2)
            | _, _ => ("Error creating todo", db)
    | _ => ("Error executing action", db)
  else if isStr action "update_todo" then
    match parameters with
    | some (JsonValue.obj fields) =>
      match dictGet fields "todo_id" with
      | none => ("Todo ID is required", db)
      | some tid =>
        if pyFalsy (some tid) then ("Todo ID is required", db)
        else
          match updStatus fields with
          | none => ("Error executing action", db)
          | some stv =>
            match updTitle fields, updDesc fields with
            | some ti, some de =>
              let r := update_todo_p (fun t => jeqId tid t.id)
                { title := ti, description := de, status := stv } db
              match r.1 with
              | none => ("Todo not found", db)
              | some _ => ("Updated todo", r.2)
            | _, _ => ("Error executing action", db)
    | _ => ("Error executing action", db)
  else if isStr action "delete_todo" then
    match parameters with
    | some (JsonValue.obj fields) =>
      match dictGet fields "todo_id" with
      | none => ("Todo ID is required", db)
      | some tid =>
        if pyFalsy (some tid) then ("Todo ID is required", db)
        else
          let r := delete_todo_p (fun t => jeqId tid t.id) db
          if r.1 then ("Deleted todo", r.2) else ("Todo not found", db)
    | _ => ("Error executing action", db)
  else ("Unknown action", db)

/-- The reply handling of `SimpleGeminiClient.process_natural_language`
(`simple_gemini_client.py` 78-93). `reply = none` models a response text
that `json.loads` rejects (`json.JSONDecodeError` branch). A reply that
parses to a non-object makes `action_data.get("action")` raise
`AttributeError`, caught by the generic `except Exception` branch. On an
object, the action and parameters are extracted with `.get` and dispatched. -/
def process_reply (reply : Option JsonValue) (db : DB) : String × DB :=
  match reply with
  | none => ("Error parsing Gemini response", db)
  | some (JsonValue.obj fields) =>
    execute_action (dictGet fields "action")
      (dictGetD fields "parameters" (JsonValue.obj [])) db
  | some _ => ("Error processing request", db)

end SimpleGeminiClient

/-! ### `todo_app.py`: the self-contained `TodoApp` class

`TodoApp` keeps its own plain `Todo` objects (`todo_app.py` 27-34): no
pydantic model, so `title`, `description` and `status` hold whatever
Python values the caller passes — they are modelled as JSON-derived
values. -/

/-- `todo_app.py` `Todo.__init__`: id plus unvalidated attribute values.
`description` and `status` are `Option` because `execute_action` passes
`params.get(...)` results, which can be Python `None`. -/
structure AppTodo where
  id : Nat
  title : JsonValue
  description : Option JsonValue
  status : Option JsonValue
  created_at : Nat
  updated_at : Nat

/-- `TodoApp.__init__` state: `self.todos`, `self.next_id`, and the
modelled wall clock. -/
structure AppState where
  todos : List AppTodo
  next_id : Nat
  clock : Nat

/-- `TodoApp` initial state: `todos = []`, `next_id = 1`. -/
def appInit : AppState := { todos := [], next_id := 1, clock := 0 }

/-- First-match in-place update of `TodoApp.update_todo`: the object found
by `get_todo` is mutated through the alias held by the list. -/
def appUpdateFirst (p : AppTodo → Bool) (f : AppTodo → AppTodo) :
    List AppTodo → Bool × List AppTodo
  | [] => (false, [])
  | t :: ts =>
    if p t then (true, f t :: ts)
    else
      let r := appUpdateFirst p f ts
      (r.1, t :: r.2)

/-- First-match removal of `TodoApp.delete_todo`. -/
def appDeleteFirst (p : AppTodo → Bool) : List AppTodo → Bool × List AppTodo
  | [] => (false, [])
  | t :: ts =>
    if p t then (true, ts)
    else
      let r := appDeleteFirst p ts
      (r.1, t :: r.2)

namespace TodoApp

/-- `TodoApp.add_todo` (`todo_app.py` 52-57): builds the record with
`id = next_id`, appends it, increments the counter. No validation of any
argument — title, description and status are stored verbatim. -/
def add_todo (title : JsonValue) (description : Option JsonValue)
    (status : Option JsonValue) (st : AppState) : AppTodo × AppState :=
  let todo : AppTodo :=
    { id := st.next_id
      title := title
      description := description
      status := status
      created_at := st.clock
      updated_at := st.clock }
  (todo, { todos := st.todos ++ [todo], next_id := st.next_id + 1, clock := st.clock + 1 })

/-- `TodoApp.get_todo` (`todo_app.py` 59-64): first todo with
`todo.id == todo_id` for the caller-held id value; a pure read. -/
def get_todo (tid : JsonValue) (st : AppState) : Option AppTodo :=
  st.todos.find? (fun t => jeqId tid t.id)

/-- `TodoApp.list_todos` (`todo_app.py` 90-92): returns the collection;
a pure read. -/
def list_todos (st : AppState) : List AppTodo :=
  st.todos

/-- The field assignments of `TodoApp.update_todo` (`todo_app.py` 66-80):
`if title:` (truthiness), `if description is not None:`, `if status:`
(truthiness), then `updated_at = datetime.now()`. -/
def applyAppUpdate (title description status : Option JsonValue) (now : Nat)
    (t : AppTodo) : AppTodo :=
  let t1 :=
    match title with
    | some v => if pyFalsy (some v) then t else { t with title := v }
    | none => t
  let t2 :=
    match description with
    | some v => { t1 with description := some v }
    | none => t1
  let t3 :=
    match status with
    | some v => if pyFalsy (some v) then t2 else { t2 with status := some v }
    | none => t2
  { t3 with updated_at := now }

/-- `TodoApp.update_todo`: find the todo, apply the supplied fields,
refresh `updated_at`; `False` when the id has no record. -/
def update_todo (tid : JsonValue) (title description status : Option JsonValue)
    (st : AppState) : Bool × AppState :=
  let r := appUpdateFirst (fun t => jeqId tid t.id)
    (applyAppUpdate title description status st.clock) st.todos
  if r.1 then (true, { st with todos := r.2, clock := st.clock + 1 })
  else (false, st)

/-- `TodoApp.delete_todo` (`todo_app.py` 82-88): pop the first match. -/
def delete_todo (tid : JsonValue) (st : AppState) : Bool × AppState :=
  let r := appDeleteFirst (fun t => jeqId tid t.id) st.todos
  (r.1, { st with todos := r.2 })

/-- `TodoApp.execute_action` (`todo_app.py` 145-220). Same shape as the
client executor but against the app's own store and with `id` as the
parameter key; crucially, the `create` and `update` branches pass the
supplied `status` value straight to the store without any validation.
Rendering of the `list`/`get` success payloads is abbreviated to constant
strings (the branches are pure reads). -/
def execute_action (action : Option JsonValue) (params : Option JsonValue)
    (st : AppState) : String × AppState :=
  if isStr action "list" then
    ("All Todos", st)
  else if isStr action "get" then
    match params with
    | some (JsonValue.obj fields) =>
      match dictGet fields "id" with
      | none => ("Todo ID required", st)
      | some tid =>
        if pyFalsy (some tid) then ("Todo ID required", st)
        else
          match get_todo tid st with
          | none => ("Todo not found", st)
          | some _ => ("Todo details", st)
    | _ => ("Error", st)
  else if isStr action "create" then
    match params with
    | some (JsonValue.obj fields) =>
      match dictGet fields "title" with
      | none => ("Title required", st)
      | some titleV =>
        if pyFalsy (some titleV) then ("Title required", st)
        else
          let description := dictGetD fields "description" (JsonValue.str "")
          let status := dictGetD fields "status" (JsonValue.str "pending")
          let r := add_todo titleV description status st
          ("Created", r.2)
    | _ => ("Error", st)
  else if isStr action "update" then
    match params with
    | some (JsonValue.obj fields) =>
      match dictGet fields "id" with
      | none => ("Todo ID required", st)
      | some tid =>
        if pyFalsy (some tid) then ("Todo ID required", st)
        else
          let r := update_todo tid (dictGet fields "title")
            (dictGet fields "description") (dictGet fields "status") st
          if r.1 then ("Updated todo", r.2) else ("Todo not found", r.2)
    | _ => ("Error", st)
  else if isStr action "delete" then
    match params with
    | some (JsonValue.obj fields) =>
      match dictGet fields "id" with
      | none => ("Todo ID required", st)
      | some tid =>
        if pyFalsy (some tid) then ("Todo ID required", st)
        else
          let r := delete_todo tid st
          if r.1 then ("Deleted todo", r.2) else ("Todo not found", r.2)
    | _ => ("Error", st)
  else ("Unknown action", st)

/-- The reply handling of `TodoApp.process_ai_command` (`todo_app.py`
133-143). A single `except Exception` clause covers every failure —
`json.loads` errors and `.get` on a non-object alike — as one generic
"Error" message. -/
def process_reply (reply : Option JsonValue) (st : AppState) : String × AppState :=
  match reply with
  | none => ("Error", st)
  | some (JsonValue.obj fields) =>
    execute_action (dictGet fields "action")
      (dictGetD fields "parameters" (JsonValue.obj [])) st
  | some _ => ("Error", st)

end TodoApp

/-! ### Helper lemmas about the `database.py` store -/

lemma create_ret_id (d : TodoCreate) (db : DB) :
    (create_todo d db).1.id = db.next_id := rfl

lemma create_next_id (d : TodoCreate) (db : DB) :
    (create_todo d db).2.next_id = db.next_id + 1 := rfl

lemma update_next_id (i : Nat) (d : TodoUpdate) (db : DB) :
    (update_todo i d db).2.next_id = db.next_id := rfl

lemma delete_next_id (i : Nat) (db : DB) :
    (delete_todo i db).2.next_id = db.next_id := rfl

lemma applyUpdate_id (d : TodoUpdate) (now : Nat) (t : Todo) :
    (applyUpdate d now t).id = t.id := rfl

lemma updateFirstP_map_id (p : Todo → Bool) (d : TodoUpdate) (now : Nat)
    (l : List Todo) :
    ((updateFirstP p d now l).2).map Todo.id = l.map Todo.id := by
  induction l with
  | nil => simp [updateFirstP]
  | cons t ts ih =>
    by_cases h : p t
    · simp [updateFirstP, h, applyUpdate_id]
    · simp [updateFirstP, h, ih]

lemma updateFirstP_mem (p : Todo → Bool) (d : TodoUpdate) (now : Nat)
    (l : List Todo) (t : Todo) (h : t ∈ (updateFirstP p d now l).2) :
    t ∈ l ∨ ∃ u ∈ l, t = applyUpdate d now u := by
  induction l with
  | nil => simp [updateFirstP] at h
  | cons a ts ih =>
    by_cases hp : p a
    · simp only [updateFirstP, hp, if_pos, List.mem_cons] at h
      rcases h with rfl | h
      · exact Or.inr ⟨a, List.mem_cons_self a ts, rfl⟩
      · exact Or.inl (List.mem_cons_of_mem _ h)
    · simp only [updateFirstP, hp, if_neg, Bool.false_eq_true, not_false_iff,
        List.mem_cons] at h
      rcases h with rfl | h
      · exact Or.inl (List.mem_cons_self t ts)
      · rcases ih h with h1 | ⟨u, hu, rfl⟩
        · exact Or.inl (List.mem_cons_of_mem _ h1)
        · exact Or.inr ⟨u, List.mem_cons_of_mem _ hu, rfl⟩

lemma updateFirstP_not_found (p : Todo → Bool) (d : TodoUpdate) (now : Nat)
    (l : List Todo) (h : l.find? p = none) :
    updateFirstP p d now l = (none, l) := by
  induction l with
  | nil => rfl
  | cons a ts ih =>
    by_cases hp : p a
    · rw [List.find?_cons_of_pos _ hp] at h
      exact absurd h (by simp)
    · rw [List.find?_cons_of_neg _ hp] at h
      simp [updateFirstP, hp, ih h]

lemma updateFirstP_found (p : Todo → Bool) (d : TodoUpdate) (now : Nat)
    (l : List Todo) (t : Todo)
    (hid : ∀ u, p (applyUpdate d now u) = p u)
    (h : l.find? p = some t) :
    (updateFirstP p d now l).1 = some (applyUpdate d now t) ∧
      ((updateFirstP p d now l).2).find? p = some (applyUpdate d now t) := by
  induction l with
  | nil => simp at h
  | cons a ts ih =>
    by_cases hpa : p a
    · rw [List.find?_cons_of_pos _ hpa] at h
      obtain rfl : a = t := Option.some.inj h
      refine ⟨by simp [updateFirstP, hpa], ?_⟩
      have hpu : p (applyUpdate d now a) = true := by rw [hid a]; exact hpa
      simp [updateFirstP, hpa, List.find?_cons_of_pos _ hpu]
    · rw [List.find?_cons_of_neg _ hpa] at h
      have hr := ih h
      refine ⟨by simp [updateFirstP, hpa, hr.1], ?_⟩
      simp [updateFirstP, hpa, List.find?_cons_of_neg _ hpa, hr.2]

lemma deleteFirstP_sublist (p : Todo → Bool) (l : List Todo) :
    ((deleteFirstP p l).2).Sublist l := by
  induction l with
  | nil => simp [deleteFirstP]
  | cons a ts ih =>
    by_cases hp : p a
    · simp only [deleteFirstP, hp, if_pos]
      exact List.sublist_cons_self a ts
    · simpa [deleteFirstP, hp] using ih.cons₂ a

lemma deleteFirstP_true_iff (p : Todo → Bool) (l : List Todo) :
    (deleteFirstP p l).1 = true ↔ ∃ t ∈ l, p t = true := by
  induction l with
  | nil => simp [deleteFirstP]
  | cons a ts ih =>
    by_cases hp : p a
    · constructor
      · intro _
        exact ⟨a, List.mem_cons_self a ts, hp⟩
      · intro _
        simp [deleteFirstP, hp]
    · simp only [deleteFirstP, hp, if_neg, Bool.false_eq_true, not_false_iff]
      rw [ih]
      constructor
      · rintro ⟨t, ht, hpt⟩
        exact ⟨t, List.mem_cons_of_mem _ ht, hpt⟩
      · rintro ⟨t, ht, hpt⟩
        rcases List.mem_cons.mp ht with rfl | ht
        · exact absurd hpt (by simp [hp])
        · exact ⟨t, ht, hpt⟩

lemma deleteFirstP_not_found (p : Todo → Bool) (l : List Todo)
    (h : l.find? p = none) : deleteFirstP p l = (false, l) := by
  induction l with
  | nil => rfl
  | cons a ts ih =>
    by_cases hp : p a
    · rw [List.find?_cons_of_pos _ hp] at h
      exact absurd h (by simp)
    · rw [List.find?_cons_of_neg _ hp] at h
      simp [deleteFirstP, hp, ih h]

lemma deleteFirstP_removes (todo_id : Nat) (l : List Todo)
    (h : (l.map Todo.id).Nodup) :
    ((deleteFirstP (fun t => t.id == todo_id) l).2).find?
      (fun t => t.id == todo_id) = none := by
  induction l with
  | nil => simp [deleteFirstP]
  | cons a ts ih =>
    rw [List.map_cons, List.nodup_cons] at h
    by_cases hp : a.id == todo_id
    · have ha : a.id = todo_id := by simpa using hp
      simp only [deleteFirstP, hp, if_pos]
      rw [List.find?_eq_none]
      intro t ht
      simp only [beq_iff_eq]
      intro hteq
      exact h.1 (by rw [ha, ← hteq]; exact List.mem_map_of_mem Todo.id ht)
    · simp only [deleteFirstP, hp, if_neg, Bool.false_eq_true, not_false_iff]
      have hstep :
          List.find? (fun t => t.id == todo_id)
              (a :: (deleteFirstP (fun t => t.id == todo_id) ts).2) =
            List.find? (fun t => t.id == todo_id)
              ((deleteFirstP (fun t => t.id == todo_id) ts).2) :=
        List.find?_cons_of_neg _ hp
      rw [hstep]
      exact ih h.2

/-! ### The store invariant and its preservation -/

/-- The reachable-state invariant of the `database.py` store: ids are
pairwise distinct and below `next_id`, every record satisfies
`created_at <= updated_at`, and every timestamp is a past clock reading. -/
def StoreInv (db : DB) : Prop :=
  ((db.todos_db.map Todo.id).Nodup) ∧
    (∀ t ∈ db.todos_db, t.id < db.next_id) ∧
    (∀ t ∈ db.todos_db, t.created_at ≤ t.updated_at ∧ t.updated_at < db.clock)

lemma storeInv_init : StoreInv initDB := by
  refine ⟨by simp [initDB], by simp [initDB], by simp [initDB]⟩

lemma storeInv_create (d : TodoCreate) (db : DB) (h : StoreInv db) :
    StoreInv (create_todo d db).2 := by
  obtain ⟨h1, h2, h3⟩ := h
  refine ⟨?_, ?_, ?_⟩
  · simp only [create_todo, List.map_append, List.map_cons, List.map_nil]
    rw [List.nodup_append]
    refine ⟨h1, by simp, ?_⟩
    intro x hx
    simp only [List.mem_singleton]
    rcases List.mem_map.mp hx with ⟨t, ht, rfl⟩
    exact Nat.ne_of_lt (h2 t ht)
  · intro t ht
    simp only [create_todo, List.mem_append, List.mem_singleton] at ht
    rcases ht with ht | rfl
    · exact Nat.lt_succ_of_lt (h2 t ht)
    · exact Nat.lt_succ_self _
  · intro t ht
    simp only [create_todo, List.mem_append, List.mem_singleton] at ht
    rcases ht with ht | rfl
    · exact ⟨(h3 t ht).1, Nat.lt_succ_of_lt (h3 t ht).2⟩
    · exact ⟨le_rfl, Nat.lt_succ_self _⟩

lemma storeInv_update_p (p : Todo → Bool) (d : TodoUpdate) (db : DB)
    (h : StoreInv db) : StoreInv (update_todo_p p d db).2 := by
  obtain ⟨h1, h2, h3⟩ := h
  refine ⟨?_, ?_, ?_⟩
  · simpa [update_todo_p, updateFirstP_map_id] using h1
  · intro t ht
    simp only [update_todo_p] at ht
    rcases updateFirstP_mem p d db.clock db.todos_db t ht with ht | ⟨u, hu, rfl⟩
    · exact h2 t ht
    · exact h2 u hu
  · intro t ht
    simp only [update_todo_p] at ht
    rcases updateFirstP_mem p d db.clock db.todos_db t ht with ht | ⟨u, hu, rfl⟩
    · exact ⟨(h3 t ht).1, Nat.lt_succ_of_lt (h3 t ht).2⟩
    · refine ⟨?_, Nat.lt_succ_self _⟩
      show u.created_at ≤ db.clock
      exact le_of_lt (lt_of_le_of_lt (h3 u hu).1 (h3 u hu).2)

lemma storeInv_delete_p (p : Todo → Bool) (db : DB) (h : StoreInv db) :
    StoreInv (delete_todo_p p db).2 := by
  obtain ⟨h1, h2, h3⟩ := h
  have hsub := deleteFirstP_sublist p db.todos_db
  refine ⟨?_, ?_, ?_⟩
  · exact h1.sublist (hsub.map Todo.id)
  · intro t ht
    exact h2 t (hsub.mem ht)
  · intro t ht
    exact h3 t (hsub.mem ht)

lemma storeInv_run (ops : List Op) (db : DB) (h : StoreInv db) :
    StoreInv (runOps ops db).1 := by
  induction ops generalizing db with
  | nil => simpa [runOps] using h
  | cons op ops ih =>
    cases op with
    | list => exact ih db h
    | get i => exact ih db h
    | create d =>
      simpa [runOps] using ih (create_todo d db).2 (storeInv_create d db h)
    | update i d =>
      exact ih (update_todo i d db).2 (storeInv_update_p _ d db h)
    | delete i =>
      exact ih (delete_todo i db).2 (storeInv_delete_p _ db h)

lemma storeInv_stateAfter (ops : List Op) : StoreInv (stateAfter ops) :=
  storeInv_run ops initDB storeInv_init

lemma runOps_created_ids (ops : List Op) (db : DB) :
    (∀ x ∈ (runOps ops db).2, db.next_id ≤ x) ∧
      ((runOps ops db).2).Pairwise (· < ·) := by
  induction ops generalizing db with
  | nil => simp [runOps]
  | cons op ops ih =>
    cases op with
    | list => exact ih db
    | get i => exact ih db
    | create d =>
      have h := ih (create_todo d db).2
      have hnext : (create_todo d db).2.next_id = db.next_id + 1 := rfl
      have hlist : (runOps (Op.create d :: ops) db).2
          = db.next_id :: (runOps ops (create_todo d db).2).2 := rfl
      rw [hlist]
      constructor
      · intro x hx
        rcases List.mem_cons.mp hx with rfl | hx
        · exact le_rfl
        · have hb := h.1 x hx
          rw [hnext] at hb
          omega
      · refine List.pairwise_cons.mpr ⟨?_, h.2⟩
        intro b hb
        have hbb := h.1 b hb
        rw [hnext] at hbb
        omega
    | update i d =>
      have h := ih (update_todo i d db).2
      have hnext : (update_todo i d db).2.next_id = db.next_id := rfl
      rw [hnext] at h
      exact h
    | delete i =>
      have h := ih (delete_todo i db).2
      have hnext : (delete_todo i db).2.next_id = db.next_id := rfl
      rw [hnext] at h
      exact h

/-! ### Claim theorems -/

/-- C1: over every sequence of store calls — any interleaving of reads,
creates, updates and deletes — the ids returned by the `create` calls are
strictly increasing in call order, hence pairwise distinct: an id, once
assigned, is never assigned again, even after the todo holding it is
deleted (`next_id` never decreases and deletion does not touch it). -/
theorem create_ids_monotone (ops : List Op) :
    ((runOps ops initDB).2).Pairwise (· < ·) ∧ ((runOps ops initDB).2).Nodup := by
  have h := runOps_created_ids ops initDB
  exact ⟨h.2, h.2.imp (fun hlt => Nat.ne_of_lt hlt)⟩

/-- C2 counterexample: `create_todo` performs no validation of the title —
called on the initial store with the empty title it raises nothing and
appends a record, so "fails with ValidationError and adds no record" is
false on the code. (`models.py` constrains `title` only to be a string, and
`database.py` checks nothing.) -/
theorem create_empty_title_succeeds :
    ((create_todo { title := "" } initDB).2).todos_db =
      [{ id := 1, title := "", description := none, status := TodoStatus.pending,
         created_at := 0, updated_at := 0 }] ∧
    (create_todo { title := "" } initDB).1.title = "" :=
  ⟨rfl, rfl⟩

/-- C2 amended: the store's `create` accepts every title, the empty string
included, and always appends one record whose `created_at` and `updated_at`
both equal the creation time; an empty (or missing) title is rejected only
upstream, by the executor's falsy-title check, with the missing-title
message, before the store is reached. -/
theorem store_create_unvalidated (todo_data : TodoCreate) (db : DB)
    (fields : List (String × JsonValue))
    (h : pyFalsy (dictGet fields "title") = true) :
    (create_todo todo_data db).1.created_at = db.clock ∧
    (create_todo todo_data db).1.updated_at = db.clock ∧
    (create_todo todo_data db).2.todos_db
      = db.todos_db ++ [(create_todo todo_data db).1] ∧
    (create_todo todo_data db).1.title = todo_data.title ∧
    SimpleGeminiClient.execute_action (some (JsonValue.str "create_todo"))
      (some (JsonValue.obj fields)) db = ("Title is required", db) := by
  refine ⟨rfl, rfl, rfl, rfl, ?_⟩
  cases hti : dictGet fields "title" with
  | none => simp [SimpleGeminiClient.execute_action, isStr, hti]
  | some v =>
    rw [hti] at h
    simp [SimpleGeminiClient.execute_action, isStr, hti, h]

/-- Witness for `store_create_unvalidated` at a concrete input: an
empty-string title is falsy for the executor, yet the store itself accepts
it. -/
theorem store_create_unvalidated_witness :
    pyFalsy (dictGet [("title", JsonValue.str "")] "title") = true ∧
    ((create_todo { title := "" } initDB).1.created_at = (initDB).clock ∧
     (create_todo { title := "" } initDB).1.updated_at = (initDB).clock ∧
     (create_todo { title := "" } initDB).2.todos_db
       = (initDB).todos_db ++ [(create_todo { title := "" } initDB).1] ∧
     (create_todo { title := "" } initDB).1.title = ({ title := "" } : TodoCreate).title ∧
     SimpleGeminiClient.execute_action (some (JsonValue.str "create_todo"))
       (some (JsonValue.obj [("title", JsonValue.str "")])) initDB
       = ("Title is required", initDB)) :=
  ⟨rfl, store_create_unvalidated { title := "" } initDB
    [("title", JsonValue.str "")] rfl⟩

/-- C4: on any reachable store state, an update that supplies only the
title changes only the title: the updated record keeps its description,
status and creation time, and its `updated_at` strictly exceeds the prior
value (the clock has advanced past every stored timestamp). -/
theorem update_title_frame (ops : List Op) (todo_id : Nat) (x : String) (t : Todo)
    (h : get_todo todo_id (stateAfter ops) = some t) :
    ∃ t2 : Todo,
      (update_todo todo_id { title := some x } (stateAfter ops)).1 = some t2 ∧
      get_todo todo_id
        (update_todo todo_id { title := some x } (stateAfter ops)).2 = some t2 ∧
      t2.title = x ∧
      t2.description = t.description ∧
      t2.status = t.status ∧
      t2.created_at = t.created_at ∧
      t.updated_at < t2.updated_at := by
  obtain ⟨hinv1, hinv2, hinv3⟩ := storeInv_stateAfter ops
  have hfind : (stateAfter ops).todos_db.find? (fun u => u.id == todo_id) = some t := h
  have hid : ∀ u : Todo,
      ((applyUpdate { title := some x } (stateAfter ops).clock u).id == todo_id)
        = (u.id == todo_id) := fun u => rfl
  have hf := updateFirstP_found (fun u => u.id == todo_id) { title := some x }
    (stateAfter ops).clock (stateAfter ops).todos_db t hid hfind
  refine ⟨applyUpdate { title := some x } (stateAfter ops).clock t,
    hf.1, hf.2, rfl, rfl, rfl, rfl, ?_⟩
  exact (hinv3 t (List.mem_of_find?_eq_some hfind)).2

/-- Witness for `update_title_frame`: state after one create, update the
title of todo 1. -/
theorem update_title_frame_witness :
    (get_todo 1 (stateAfter [Op.create { title := "A" }]) =
      some { id := 1, title := "A", description := none,
             status := TodoStatus.pending, created_at := 0, updated_at := 0 }) ∧
    ∃ t2 : Todo,
      (update_todo 1 { title := some "B" }
        (stateAfter [Op.create { title := "A" }])).1 = some t2 ∧
      get_todo 1 (update_todo 1 { title := some "B" }
        (stateAfter [Op.create { title := "A" }])).2 = some t2 ∧
      t2.title = "B" ∧
      t2.description = (none : Option String) ∧
      t2.status = TodoStatus.pending ∧
      t2.created_at = 0 ∧
      0 < t2.updated_at :=
  ⟨rfl, update_title_frame [Op.create { title := "A" }] 1 "B" _ rfl⟩

/-- C5: on any reachable store state, `delete_todo` returns `True` exactly
when a record with the id exists; after a `True` delete, `get_todo` on that
id reports not-found (`None`); a `False` delete leaves the state entirely
unchanged. -/
theorem delete_todo_spec (ops : List Op) (todo_id : Nat) :
    ((delete_todo todo_id (stateAfter ops)).1 = true ↔
      ∃ t ∈ (stateAfter ops).todos_db, t.id = todo_id) ∧
    ((delete_todo todo_id (stateAfter ops)).1 = true →
      get_todo todo_id (delete_todo todo_id (stateAfter ops)).2 = none) ∧
    ((delete_todo todo_id (stateAfter ops)).1 = false →
      (delete_todo todo_id (stateAfter ops)).2 = stateAfter ops) := by
  obtain ⟨hinv1, _, _⟩ := storeInv_stateAfter ops
  have hfst : (delete_todo todo_id (stateAfter ops)).1
      = (deleteFirstP (fun u => u.id == todo_id) (stateAfter ops).todos_db).1 := rfl
  refine ⟨?_, ?_, ?_⟩
  · rw [hfst, deleteFirstP_true_iff]
    constructor
    · rintro ⟨t, ht, hpt⟩
      exact ⟨t, ht, by simpa using hpt⟩
    · rintro ⟨t, ht, hpt⟩
      exact ⟨t, ht, by simpa using hpt⟩
  · intro _
    exact deleteFirstP_removes todo_id (stateAfter ops).todos_db hinv1
  · intro hfalse
    rw [hfst] at hfalse
    have hnone : (stateAfter ops).todos_db.find? (fun u => u.id == todo_id) = none := by
      rw [List.find?_eq_none]
      intro t ht hpt
      have htrue : (deleteFirstP (fun u => u.id == todo_id)
          (stateAfter ops).todos_db).1 = true :=
        (deleteFirstP_true_iff _ _).mpr ⟨t, ht, hpt⟩
      rw [htrue] at hfalse
      cases hfalse
    have hkeep := deleteFirstP_not_found (fun u => u.id == todo_id)
      (stateAfter ops).todos_db hnone
    show ({ stateAfter ops with
      todos_db := (deleteFirstP (fun u => u.id == todo_id)
        (stateAfter ops).todos_db).2 } : DB) = stateAfter ops
    rw [congrArg Prod.snd hkeep]

/-- Witness for `delete_todo_spec`: after one create, deleting id 1
succeeds and a subsequent get reports not-found. -/
theorem delete_todo_spec_witness :
    (delete_todo 1 (stateAfter [Op.create { title := "A" }])).1 = true ∧
    get_todo 1 (delete_todo 1 (stateAfter [Op.create { title := "A" }])).2 = none :=
  ⟨rfl, (delete_todo_spec [Op.create { title := "A" }] 1).2.1 rfl⟩

/-- C9: on any reachable store state, an update that supplies zero fields
still refreshes the record's `updated_at` to the time of the call (strictly
later than the prior value, every stored field kept), and the invariant
`created_at <= updated_at` holds for every record both before and after
the call. -/
theorem update_zero_fields_refreshes (ops : List Op) (todo_id : Nat) (t : Todo)
    (h : get_todo todo_id (stateAfter ops) = some t) :
    (∃ t2 : Todo,
      (update_todo todo_id {} (stateAfter ops)).1 = some t2 ∧
      get_todo todo_id (update_todo todo_id {} (stateAfter ops)).2 = some t2 ∧
      t2.updated_at = (stateAfter ops).clock ∧
      t.updated_at < t2.updated_at ∧
      t2.title = t.title ∧
      t2.description = t.description ∧
      t2.status = t.status ∧
      t2.created_at = t.created_at) ∧
    (∀ u ∈ (stateAfter ops).todos_db, u.created_at ≤ u.updated_at) ∧
    (∀ u ∈ (update_todo todo_id {} (stateAfter ops)).2.todos_db,
      u.created_at ≤ u.updated_at) := by
  have hinv := storeInv_stateAfter ops
  obtain ⟨hinv1, hinv2, hinv3⟩ := hinv
  have hfind : (stateAfter ops).todos_db.find? (fun u => u.id == todo_id) = some t := h
  have hid : ∀ u : Todo,
      ((applyUpdate {} (stateAfter ops).clock u).id == todo_id)
        = (u.id == todo_id) := fun u => rfl
  have hf := updateFirstP_found (fun u => u.id == todo_id) {}
    (stateAfter ops).clock (stateAfter ops).todos_db t hid hfind
  have hafter := storeInv_update_p (fun u => u.id == todo_id) {}
    (stateAfter ops) ⟨hinv1, hinv2, hinv3⟩
  refine ⟨⟨applyUpdate {} (stateAfter ops).clock t,
    hf.1, hf.2, rfl, ?_, rfl, rfl, rfl, rfl⟩, ?_, ?_⟩
  · exact (hinv3 t (List.mem_of_find?_eq_some hfind)).2
  · intro u hu
    exact (hinv3 u hu).1
  · intro u hu
    exact (hafter.2.2 u hu).1

/-- Witness for `update_zero_fields_refreshes`: state after one create,
empty update of todo 1. -/
theorem update_zero_fields_refreshes_witness :
    (get_todo 1 (stateAfter [Op.create { title := "A" }]) =
      some { id := 1, title := "A", description := none,
             status := TodoStatus.pending, created_at := 0, updated_at := 0 }) ∧
    ((∃ t2 : Todo,
      (update_todo 1 {} (stateAfter [Op.create { title := "A" }])).1 = some t2 ∧
      get_todo 1 (update_todo 1 {} (stateAfter [Op.create { title := "A" }])).2
        = some t2 ∧
      t2.updated_at = (stateAfter [Op.create { title := "A" }]).clock ∧
      0 < t2.updated_at ∧
      t2.title = "A" ∧
      t2.description = (none : Option String) ∧
      t2.status = TodoStatus.pending ∧
      t2.created_at = 0) ∧
    (∀ u ∈ (stateAfter [Op.create { title := "A" }]).todos_db,
      u.created_at ≤ u.updated_at) ∧
    (∀ u ∈ (update_todo 1 {} (stateAfter [Op.create { title := "A" }])).2.todos_db,
      u.created_at ≤ u.updated_at)) :=
  ⟨rfl, update_zero_fields_refreshes [Op.create { title := "A" }] 1 _ rfl⟩

/-- C10: the read operations are pure — a sequence made only of `list` and
`get` calls maps any store state to itself (collection, id counter and
clock all unchanged) and returns no created ids, so any sequence of reads
between two mutations observes the same state. -/
theorem reads_pure (ops : List Op) (db : DB) (h : ∀ c ∈ ops, isRead c = true) :
    (runOps ops db).1 = db ∧ (runOps ops db).2 = [] := by
  induction ops with
  | nil => exact ⟨rfl, rfl⟩
  | cons op ops ih =>
    have hop := h op (List.mem_cons_self op ops)
    have hrest : ∀ c ∈ ops, isRead c = true :=
      fun c hc => h c (List.mem_cons_of_mem op hc)
    cases op with
    | list => exact ih hrest
    | get i => exact ih hrest
    | create d => simp [isRead] at hop
    | update i d => simp [isRead] at hop
    | delete i => simp [isRead] at hop

/-- Witness for `reads_pure`: a list call followed by a get call leaves the
initial state untouched. -/
theorem reads_pure_witness :
    (∀ c ∈ [Op.list, Op.get 1], isRead c = true) ∧
    ((runOps [Op.list, Op.get 1] initDB).1 = initDB ∧
      (runOps [Op.list, Op.get 1] initDB).2 = []) :=
  ⟨by decide, reads_pure [Op.list, Op.get 1] initDB (by decide)⟩

/-- C3 counterexample: the `TodoApp` executor does not validate the status.
A create request supplying the status `"done"` — outside the enum, as the
last conjunct records — succeeds and stores the value verbatim, so "fails
with ValidationError and the store is left unchanged; the value is never
... stored as-is" is false on the code. -/
theorem status_stored_verbatim :
    (TodoApp.execute_action (some (JsonValue.str "create"))
      (some (JsonValue.obj
        [("title", JsonValue.str "Task"), ("status", JsonValue.str "done")]))
      appInit).1 = "Created" ∧
    (TodoApp.execute_action (some (JsonValue.str "create"))
      (some (JsonValue.obj
        [("title", JsonValue.str "Task"), ("status", JsonValue.str "done")]))
      appInit).2.todos =
      [{ id := 1, title := JsonValue.str "Task",
         description := some (JsonValue.str ""),
         status := some (JsonValue.str "done"), created_at := 0, updated_at := 0 }] ∧
    toStatus (some (JsonValue.str "done")) = none :=
  ⟨rfl, rfl, rfl⟩

/-- C3 amended: only the `SimpleGeminiClient` executor enforces the status
enum — there, a create or update request supplying a status string outside
`{pending, in_progress, completed}` fails in the `TodoStatus(...)`
conversion before any store call, the error branch is returned and the
store is unchanged; the `TodoApp` executor stores the supplied value
as-is (see the counterexample). -/
theorem sgc_invalid_status_rejected (s : String)
    (fields : List (String × JsonValue)) (db : DB)
    (hs : toStatus (some (JsonValue.str s)) = none)
    (hfld : jfind fields "status" = some (JsonValue.str s)) :
    (pyFalsy (dictGet fields "title") = false →
      SimpleGeminiClient.execute_action (some (JsonValue.str "create_todo"))
        (some (JsonValue.obj fields)) db = ("Error creating todo", db)) ∧
    (pyFalsy (dictGet fields "todo_id") = false →
      SimpleGeminiClient.execute_action (some (JsonValue.str "update_todo"))
        (some (JsonValue.obj fields)) db = ("Error executing action", db)) := by
  constructor
  · intro hti
    cases htiv : dictGet fields "title" with
    | none => rw [htiv] at hti; cases hti
    | some v =>
      rw [htiv] at hti
      simp [SimpleGeminiClient.execute_action, isStr, htiv, hti,
        dictGetD, hfld, asPy, hs]
  · intro hid
    cases hidv : dictGet fields "todo_id" with
    | none => rw [hidv] at hid; cases hid
    | some v =>
      rw [hidv] at hid
      simp [SimpleGeminiClient.execute_action, isStr, hidv, hid,
        updStatus, hfld, asPy, hs]

/-- Witness for `sgc_invalid_status_rejected`: status `"done"` on a
request carrying both a title and a todo id. -/
theorem sgc_invalid_status_rejected_witness :
    toStatus (some (JsonValue.str "done")) = none ∧
    jfind [("todo_id", JsonValue.num 1), ("title", JsonValue.str "T"),
      ("status", JsonValue.str "done")] "status" = some (JsonValue.str "done") ∧
    SimpleGeminiClient.execute_action (some (JsonValue.str "create_todo"))
      (some (JsonValue.obj [("todo_id", JsonValue.num 1),
        ("title", JsonValue.str "T"), ("status", JsonValue.str "done")])) initDB
      = ("Error creating todo", initDB) ∧
    SimpleGeminiClient.execute_action (some (JsonValue.str "update_todo"))
      (some (JsonValue.obj [("todo_id", JsonValue.num 1),
        ("title", JsonValue.str "T"), ("status", JsonValue.str "done")])) initDB
      = ("Error executing action", initDB) :=
  ⟨rfl, rfl,
    (sgc_invalid_status_rejected "done"
      [("todo_id", JsonValue.num 1), ("title", JsonValue.str "T"),
        ("status", JsonValue.str "done")] initDB rfl rfl).1 rfl,
    (sgc_invalid_status_rejected "done"
      [("todo_id", JsonValue.num 1), ("title", JsonValue.str "T"),
        ("status", JsonValue.str "done")] initDB rfl rfl).2 rfl⟩

/-- C6 counterexample: a reply that is valid JSON but not an object — the
JSON number 5 — is handled by the generic `except Exception` branch of
`process_natural_language` (the same handler that covers service errors),
not by the `json.JSONDecodeError` branch that realises `ParseError`, so
"fails with ParseError" is false for this input (the executor is still
never invoked). -/
theorem json_non_object_generic_error :
    SimpleGeminiClient.process_reply (some (JsonValue.num 5)) initDB
      = ("Error processing request", initDB) ∧
    ("Error processing request" : String) ≠ "Error parsing Gemini response" :=
  ⟨rfl, by decide⟩

/-- C6 amended: for every malformed service reply the executor is never
invoked and the store is unchanged; a reply that is not valid JSON fails
in the dedicated parse-error branch, while a reply that is valid JSON but
not an object fails in the generic exception branch (shared with service
errors) rather than the parse-error branch; `TodoApp` folds every such
failure into its single generic error branch. -/
theorem malformed_reply_no_dispatch (reply : Option JsonValue) (db : DB)
    (st : AppState) (h : ∀ fields, reply ≠ some (JsonValue.obj fields)) :
    (SimpleGeminiClient.process_reply reply db).2 = db ∧
    (reply = none →
      SimpleGeminiClient.process_reply reply db
        = ("Error parsing Gemini response", db)) ∧
    (∀ v, reply = some v →
      SimpleGeminiClient.process_reply reply db
        = ("Error processing request", db)) ∧
    (TodoApp.process_reply reply st).2 = st ∧
    (TodoApp.process_reply reply st).1 = "Error" := by
  cases reply with
  | none => exact ⟨rfl, fun _ => rfl, fun v hv => Option.noConfusion hv, rfl, rfl⟩
  | some v =>
    cases v with
    | obj fields => exact absurd rfl (h fields)
    | null => exact ⟨rfl, fun hx => Option.noConfusion hx, fun _ _ => rfl, rfl, rfl⟩
    | bool b => exact ⟨rfl, fun hx => Option.noConfusion hx, fun _ _ => rfl, rfl, rfl⟩
    | num n => exact ⟨rfl, fun hx => Option.noConfusion hx, fun _ _ => rfl, rfl, rfl⟩
    | str s => exact ⟨rfl, fun hx => Option.noConfusion hx, fun _ _ => rfl, rfl, rfl⟩
    | arr xs => exact ⟨rfl, fun hx => Option.noConfusion hx, fun _ _ => rfl, rfl, rfl⟩

/-- Witness for `malformed_reply_no_dispatch`: the spec's own example of a
non-JSON reply text, modelled as the reply `json.loads` rejects, plus the
string-reply case. -/
theorem malformed_reply_no_dispatch_witness :
    (∀ fields, (some (JsonValue.str "sure, here you go") : Option JsonValue)
      ≠ some (JsonValue.obj fields)) ∧
    (SimpleGeminiClient.process_reply (some (JsonValue.str "sure, here you go"))
      initDB).2 = initDB ∧
    (TodoApp.process_reply (some (JsonValue.str "sure, here you go"))
      appInit).1 = "Error" :=
  ⟨fun fields hc => by simp at hc,
    (malformed_reply_no_dispatch (some (JsonValue.str "sure, here you go"))
      initDB appInit (fun fields hc => by simp at hc)).1,
    (malformed_reply_no_dispatch (some (JsonValue.str "sure, here you go"))
      initDB appInit (fun fields hc => by simp at hc)).2.2.2.2⟩

/-- C7: in both executors, a parsed action string outside the recognized
set falls through the whole dispatch chain to the unknown-action branch:
the error is returned and the state — collection, id counter, clock — is
exactly the input state, whatever the parameters are. -/
theorem unknown_action_rejected (a : String) (ps1 ps2 : Option JsonValue)
    (db : DB) (st : AppState)
    (h1 : a ≠ "list_todos") (h2 : a ≠ "get_todo") (h3 : a ≠ "create_todo")
    (h4 : a ≠ "update_todo") (h5 : a ≠ "delete_todo")
    (g1 : a ≠ "list") (g2 : a ≠ "get") (g3 : a ≠ "create")
    (g4 : a ≠ "update") (g5 : a ≠ "delete") :
    SimpleGeminiClient.execute_action (some (JsonValue.str a)) ps1 db
      = ("Unknown action", db) ∧
    TodoApp.execute_action (some (JsonValue.str a)) ps2 st
      = ("Unknown action", st) := by
  constructor
  · simp [SimpleGeminiClient.execute_action, isStr, h1, h2, h3, h4, h5]
  · simp [TodoApp.execute_action, isStr, g1, g2, g3, g4, g5]

/-- Witness for `unknown_action_rejected`: the spec's `"archive"` action. -/
theorem unknown_action_rejected_witness :
    SimpleGeminiClient.execute_action (some (JsonValue.str "archive"))
      (some (JsonValue.obj [])) initDB = ("Unknown action", initDB) ∧
    TodoApp.execute_action (some (JsonValue.str "archive"))
      (some (JsonValue.obj [])) appInit = ("Unknown action", appInit) :=
  unknown_action_rejected "archive" (some (JsonValue.obj []))
    (some (JsonValue.obj [])) initDB appInit
    (by decide) (by decide) (by decide) (by decide) (by decide)
    (by decide) (by decide) (by decide) (by decide) (by decide)

/-- C8: in both executors, a get intent whose parameters lack the id key
returns the missing-id error with the state exactly unchanged — no store
operation happens, the collection and the id counter are untouched. -/
theorem get_missing_id (fields1 fields2 : List (String × JsonValue))
    (db : DB) (st : AppState)
    (h1 : jfind fields1 "todo_id" = none) (h2 : jfind fields2 "id" = none) :
    SimpleGeminiClient.execute_action (some (JsonValue.str "get_todo"))
      (some (JsonValue.obj fields1)) db = ("Todo ID is required", db) ∧
    TodoApp.execute_action (some (JsonValue.str "get"))
      (some (JsonValue.obj fields2)) st = ("Todo ID required", st) := by
  constructor
  · simp [SimpleGeminiClient.execute_action, isStr, dictGet, h1]
  · simp [TodoApp.execute_action, isStr, dictGet, h2]

/-- Witness for `get_missing_id`: empty parameter objects. -/
theorem get_missing_id_witness :
    jfind [] "todo_id" = none ∧
    jfind [] "id" = none ∧
    SimpleGeminiClient.execute_action (some (JsonValue.str "get_todo"))
      (some (JsonValue.obj [])) initDB = ("Todo ID is required", initDB) ∧
    TodoApp.execute_action (some (JsonValue.str "get"))
      (some (JsonValue.obj [])) appInit = ("Todo ID required", appInit) :=
  ⟨rfl, rfl, (get_missing_id [] [] initDB appInit rfl rfl).1,
    (get_missing_id [] [] initDB appInit rfl rfl).2⟩

